import Mathlib

/-!
Verification development for the `a-movies` repository.

The JavaScript source is shallowly embedded: JS strings become `List Char`,
JS objects parsed from JSON lines become explicit structures with `Option`
fields (`none` models an absent / `undefined` field), host functions such as
`JSON.parse` are abstract parameters, and the outcome of each outbound
network call is an explicit input of the embedded function.
-/

namespace AMovies

/-- JS strings are modelled as lists of characters. -/
abbrev JStr := List Char

/-- Coerce a Lean string literal to the JS-string model. -/
def ofStr (s : String) : JStr := s.data

/-- Model of `String.prototype.toLowerCase` (ASCII case mapping). -/
def lowerStr (s : JStr) : JStr := s.map Char.toLower

/-- Model of `a.startsWith(b)` on the char-list representation:
`true` iff `q` is an initial segment of `h`. -/
def startsWith : JStr → JStr → Bool
  | _, [] => true
  | [], _ :: _ => false
  | a :: as, b :: bs => a == b && startsWith as bs

/-- Model of `haystack.includes(needle)` (JS contiguous-substring test),
translated as: some suffix of `h` starts with `q`. -/
def containsSub : JStr → JStr → Bool
  | [], q => startsWith [] q
  | a :: rest, q => startsWith (a :: rest) q || containsSub rest q

theorem startsWith_iff (h q : JStr) :
    startsWith h q = true ↔ ∃ suf, h = q ++ suf := by
  induction q generalizing h with
  | nil =>
    simp only [startsWith, List.nil_append, true_iff]
    exact ⟨h, rfl⟩
  | cons b bs ih =>
    cases h with
    | nil => simp [startsWith]
    | cons a as =>
      simp only [startsWith, Bool.and_eq_true, beq_iff_eq, ih]
      constructor
      · rintro ⟨hab, suf, hsuf⟩
        exact ⟨suf, by simp [hab, hsuf]⟩
      · rintro ⟨suf, hsuf⟩
        simp only [List.cons_append, List.cons.injEq] at hsuf
        exact ⟨hsuf.1, suf, hsuf.2⟩

theorem containsSub_iff (h q : JStr) :
    containsSub h q = true ↔ ∃ pre suf, h = pre ++ q ++ suf := by
  induction h with
  | nil =>
    simp only [containsSub, startsWith_iff]
    constructor
    · rintro ⟨suf, hsuf⟩
      exact ⟨[], suf, hsuf⟩
    · rintro ⟨pre, suf, hsuf⟩
      cases pre with
      | nil => exact ⟨suf, hsuf⟩
      | cons x xs => simp at hsuf
  | cons a rest ih =>
    simp only [containsSub, Bool.or_eq_true, startsWith_iff, ih]
    constructor
    · rintro (⟨suf, hsuf⟩ | ⟨pre, suf, hsuf⟩)
      · exact ⟨[], suf, by simpa using hsuf⟩
      · exact ⟨a :: pre, suf, by simp [hsuf]⟩
    · rintro ⟨pre, suf, hsuf⟩
      cases pre with
      | nil =>
        exact Or.inl ⟨suf, by simpa using hsuf⟩
      | cons x xs =>
        simp only [List.cons_append, List.cons.injEq] at hsuf
        exact Or.inr ⟨xs, suf, hsuf.2⟩

/-- JSON values, as produced by `JSON.parse` and fed to `JSON.stringify`.
JS numbers are restricted to integers (every number appearing in this
repository's records is integral). -/
inductive JVal : Type where
  | jnull : JVal
  | jbool : Bool → JVal
  | jint : Int → JVal
  | jstr : JStr → JVal
  | jarr : List JVal → JVal
  | jobj : List (JStr × JVal) → JVal

/-- Decimal digit character. -/
def digitChar : Nat → Char
  | 0 => '0' | 1 => '1' | 2 => '2' | 3 => '3' | 4 => '4'
  | 5 => '5' | 6 => '6' | 7 => '7' | 8 => '8' | 9 => '9'
  | _ => '*'

/-- Hexadecimal digit character (for `\u00XX` escapes). -/
def hexDigit : Nat → Char
  | 10 => 'a' | 11 => 'b' | 12 => 'c' | 13 => 'd' | 14 => 'e' | 15 => 'f'
  | n => digitChar n

/-- Decimal rendering of a natural number. -/
def natToStr (n : Nat) : JStr :=
  if h : n < 10 then [digitChar n]
  else natToStr (n / 10) ++ [digitChar (n % 10)]
decreasing_by
  exact Nat.div_lt_self (by omega) (by omega)

/-- Decimal rendering of an integer, as `JSON.stringify` renders it. -/
def intToStr (i : Int) : JStr :=
  if i < 0 then '-' :: natToStr (-i).toNat else natToStr i.toNat

/-- Escaping of one character inside a JSON string literal, following
`JSON.stringify`'s quoting rules. -/
def escapeChar (c : Char) : JStr :=
  if c == Char.ofNat 34 then [Char.ofNat 92, Char.ofNat 34]
  else if c == Char.ofNat 92 then [Char.ofNat 92, Char.ofNat 92]
  else if c == '\n' then [Char.ofNat 92, 'n']
  else if c == '\t' then [Char.ofNat 92, 't']
  else if c == '\r' then [Char.ofNat 92, 'r']
  else if c == Char.ofNat 8 then [Char.ofNat 92, 'b']
  else if c == Char.ofNat 12 then [Char.ofNat 92, 'f']
  else if c.toNat < 32 then
    [Char.ofNat 92, 'u', '0', '0', hexDigit (c.toNat / 16), hexDigit (c.toNat % 16)]
  else [c]

/-- JSON string literal serialization: quote, escape every character, quote. -/
def serStr (s : JStr) : JStr :=
  Char.ofNat 34 :: ((s.map escapeChar).flatten ++ [Char.ofNat 34])

mutual

/-- `JSON.stringify` on a JSON value (no pretty-printing, as in the source). -/
def serVal : JVal → JStr
  | .jnull => ofStr "null"
  | .jbool true => ofStr "true"
  | .jbool false => ofStr "false"
  | .jint n => intToStr n
  | .jstr s => serStr s
  | .jarr vs => '[' :: (serList vs ++ [']'])
  | .jobj fs => Char.ofNat 123 :: (serFields fs ++ [Char.ofNat 125])

/-- Comma-separated serialization of array elements. -/
def serList : List JVal → JStr
  | [] => []
  | [v] => serVal v
  | v :: w :: rest => serVal v ++ ',' :: serList (w :: rest)

/-- Comma-separated serialization of object fields (`"key":value`). -/
def serFields : List (JStr × JVal) → JStr
  | [] => []
  | [(k, v)] => serStr k ++ ':' :: serVal v
  | (k, v) :: p :: rest => serStr k ++ ':' :: serVal v ++ ',' :: serFields (p :: rest)

end

theorem digitChar_ne_newline (k : Nat) : digitChar k ≠ '\n' := by
  unfold digitChar
  split <;> decide

theorem hexDigit_ne_newline (k : Nat) : hexDigit k ≠ '\n' := by
  unfold hexDigit
  split
  case _ => decide
  case _ => decide
  case _ => decide
  case _ => decide
  case _ => decide
  case _ => decide
  case _ => exact digitChar_ne_newline k

theorem newline_not_mem_natToStr (n : Nat) : '\n' ∉ natToStr n := by
  induction n using Nat.strong_induction_on with
  | _ n ih =>
    rw [natToStr]
    by_cases h : n < 10
    · simp only [h, dite_true, List.mem_singleton]
      intro hd
      exact digitChar_ne_newline n hd.symm
    · simp only [h, dite_false, List.mem_append, List.mem_singleton]
      rintro (hmem | hd)
      · exact ih (n / 10) (Nat.div_lt_self (by omega) (by omega)) hmem
      · exact digitChar_ne_newline (n % 10) hd.symm

theorem newline_not_mem_intToStr (i : Int) : '\n' ∉ intToStr i := by
  rw [intToStr]
  by_cases h : i < 0
  · simp only [h, if_true, List.mem_cons]
    rintro (hc | hmem)
    · exact absurd hc (by decide)
    · exact newline_not_mem_natToStr _ hmem
  · simp only [h, if_false]
    exact newline_not_mem_natToStr _

theorem newline_not_mem_escapeChar (c : Char) : '\n' ∉ escapeChar c := by
  rw [escapeChar]
  by_cases h1 : c == Char.ofNat 34
  · simp [h1]
  by_cases h2 : c == Char.ofNat 92
  · simp [h1, h2]
  by_cases h3 : c == '\n'
  · simp [h1, h2, h3]
  by_cases h4 : c == '\t'
  · simp [h1, h2, h3, h4]
  by_cases h5 : c == '\r'
  · simp [h1, h2, h3, h4, h5]
  by_cases h6 : c == Char.ofNat 8
  · simp [h1, h2, h3, h4, h5, h6]
  by_cases h7 : c == Char.ofNat 12
  · simp [h1, h2, h3, h4, h5, h6, h7]
  by_cases h8 : c.toNat < 32
  · simp only [h1, h2, h3, h4, h5, h6, h7, h8, if_true, if_false, Bool.false_eq_true,
      List.mem_cons, List.mem_singleton]
    rintro (h | h | h | h | h | h | h)
    · exact absurd h (by decide)
    · exact absurd h (by decide)
    · exact absurd h (by decide)
    · exact absurd h (by decide)
    · exact hexDigit_ne_newline _ h.symm
    · exact hexDigit_ne_newline _ h.symm
    · simp at h
  · simp only [h1, h2, h3, h4, h5, h6, h7, h8, if_false, Bool.false_eq_true,
      List.mem_singleton]
    intro hc
    subst hc
    exact h8 (by decide)

theorem newline_not_mem_serStr (s : JStr) : '\n' ∉ serStr s := by
  simp only [serStr, List.mem_cons, List.mem_append, List.mem_singleton, List.mem_flatten]
  rintro (h | ⟨part, hpart, hmem⟩ | h)
  · exact absurd h (by decide)
  · obtain ⟨c, _, rfl⟩ := List.mem_map.mp hpart
    exact newline_not_mem_escapeChar c hmem
  · exact absurd h (by decide)

mutual

theorem newline_not_mem_serVal : (v : JVal) → '\n' ∉ serVal v
  | .jnull => by rw [serVal]; decide
  | .jbool true => by rw [serVal]; decide
  | .jbool false => by rw [serVal]; decide
  | .jint n => by rw [serVal]; exact newline_not_mem_intToStr n
  | .jstr s => by rw [serVal]; exact newline_not_mem_serStr s
  | .jarr vs => by
    rw [serVal]
    simp only [List.mem_cons, List.mem_append, List.mem_singleton]
    rintro (h | h | h)
    · exact absurd h (by decide)
    · exact newline_not_mem_serList vs h
    · exact absurd h (by decide)
  | .jobj fs => by
    rw [serVal]
    simp only [List.mem_cons, List.mem_append, List.mem_singleton]
    rintro (h | h | h)
    · exact absurd h (by decide)
    · exact newline_not_mem_serFields fs h
    · exact absurd h (by decide)

theorem newline_not_mem_serList : (vs : List JVal) → '\n' ∉ serList vs
  | [] => by rw [serList]; decide
  | [v] => by rw [serList]; exact newline_not_mem_serVal v
  | v :: w :: rest => by
    rw [serList]
    simp only [List.mem_append, List.mem_cons]
    rintro (h | h | h)
    · exact newline_not_mem_serVal v h
    · exact absurd h (by decide)
    · exact newline_not_mem_serList (w :: rest) h

theorem newline_not_mem_serFields : (fs : List (JStr × JVal)) → '\n' ∉ serFields fs
  | [] => by rw [serFields]; decide
  | [(k, v)] => by
    rw [serFields]
    simp only [List.mem_append, List.mem_cons]
    rintro (h | h | h)
    · exact newline_not_mem_serStr k h
    · exact absurd h (by decide)
    · exact newline_not_mem_serVal v h
  | (k, v) :: p :: rest => by
    rw [serFields]
    simp only [List.mem_append, List.mem_cons]
    rintro ((h | h | h) | h | h)
    · exact newline_not_mem_serStr k h
    · exact absurd h (by decide)
    · exact newline_not_mem_serVal v h
    · exact absurd h (by decide)
    · exact newline_not_mem_serFields (p :: rest) h

end

/-- A JSON record as seen by `naiveVectorStoreSearch` after `JSON.parse`.
`none` models an absent (or non-string / non-array, hence defaulted) field.
`jsonAll` stands for `JSON.stringify(doc)`, the host's re-serialization of
the whole parsed object, used only as the last fallback for `text`. -/
structure JsDoc where
  text : Option JStr := none
  title : Option JStr := none
  comment : Option JStr := none
  kind : Option JStr := none
  type : Option JStr := none
  tags : Option (List JStr) := none
  created_at : Option JStr := none
  marked_at : Option JStr := none
  jsonAll : JStr := []

/-- JS `a || b` for an optional string `a` and fallback `b`
(the empty string is falsy). -/
def jsOrStr (a : Option JStr) (b : JStr) : JStr :=
  match a with
  | some s => if s.isEmpty then b else s
  | none => b

/-- Truthiness of an optional JS string (absent and `""` are falsy). -/
def jsTruthyStr (a : Option JStr) : Bool :=
  match a with
  | some s => !s.isEmpty
  | none => false

/-- JS `a || b || null` for optional strings (`mcp-server.mjs` line 121). -/
def jsOrOpt (a b : Option JStr) : Option JStr :=
  if jsTruthyStr a then a else if jsTruthyStr b then b else none

/-- `Array.isArray(doc.tags) ? doc.tags : []` (`mcp-server.mjs` line 95). -/
def docTags (d : JsDoc) : List JStr := d.tags.getD []

/-- `requiredTags.every((t) => tags.includes(t))` (`mcp-server.mjs` line 97). -/
def hasAllTags (req : List JStr) (tags : List JStr) : Bool :=
  req.all fun t => tags.contains t

/-- The tag filter of `mcp-server.mjs` lines 96-99: with no required tags
every record passes, otherwise all required tags must be present. -/
def tagsPass (rt : Option (List JStr)) (d : JsDoc) : Bool :=
  match rt with
  | none => true
  | some req => hasAllTags req (docTags d)

/-- The lowercased haystack of `mcp-server.mjs` lines 101-113: text, title,
comment, `JSON.stringify(tags)`, kind and type, space-separated, lowercased. -/
def haystack (d : JsDoc) : JStr :=
  lowerStr (jsOrStr d.text [] ++ ofStr " " ++ jsOrStr d.title [] ++ ofStr " " ++
    jsOrStr d.comment [] ++ ofStr " " ++ serVal (.jarr ((docTags d).map .jstr)) ++
    ofStr " " ++ jsOrStr d.kind [] ++ ofStr " " ++ jsOrStr d.type [])

/-- `haystack.includes(queryLower)` (`mcp-server.mjs` line 115). -/
def queryMatches (d : JsDoc) (qLower : JStr) : Bool :=
  containsSub (haystack d) qLower

/-- One search result (`mcp-server.mjs` lines 117-123). -/
structure SearchResult where
  text : JStr
  kind : JStr
  tags : List JStr
  created_at : Option JStr
  score : Nat

/-- Build the pushed result object (`mcp-server.mjs` lines 117-123). -/
def mkResult (d : JsDoc) : SearchResult :=
  { text := jsOrStr d.text (jsOrStr d.title d.jsonAll)
    kind := jsOrStr d.kind (jsOrStr d.type (ofStr "unknown"))
    tags := docTags d
    created_at := jsOrOpt d.created_at d.marked_at
    score := 1 }

/-- Characters removed by JS `String.prototype.trim` (the ASCII whitespace
set plus NBSP and BOM; the remaining Unicode space separators do not occur
in this development). -/
def isJsSpace (c : Char) : Bool :=
  c == ' ' || c == '\t' || c == '\n' || c == '\r' ||
  c == Char.ofNat 11 || c == Char.ofNat 12 || c == Char.ofNat 0xA0 ||
  c == Char.ofNat 0xFEFF

/-- `line.trim().length > 0` is false exactly when every character is
whitespace. -/
def isBlankLine (l : JStr) : Bool := l.all isJsSpace

/-- `text.split("\n")` on the char-list representation. -/
def splitNl : JStr → List JStr
  | [] => [[]]
  | c :: rest =>
    match splitNl rest with
    | [] => [[c]]
    | l :: ls => if c = '\n' then [] :: l :: ls else (c :: l) :: ls

/-- `text.split("\n").filter((line) => line.trim().length > 0)`
(`mcp-server.mjs` line 83). -/
def fileLines (t : JStr) : List JStr :=
  (splitNl t).filter fun l => !isBlankLine l

/-- The per-line decision of the scan loop (`mcp-server.mjs` lines 88-123)
as a partial map: `none` when the line is skipped (parse failure, tag
filter, or no substring match), `some` with the pushed result otherwise.
`parse` is the host's `JSON.parse` restricted to one line: `none` models a
thrown `SyntaxError`. -/
def lineMatch (parse : JStr → Option JsDoc) (qL : JStr) (rt : Option (List JStr))
    (l : JStr) : Option SearchResult :=
  match parse l with
  | none => none
  | some d =>
    if tagsPass rt d then
      if queryMatches d qL then some (mkResult d) else none
    else none

/-- All matches of a line list, in order, without the `topK` early stop. -/
def lineMatches (parse : JStr → Option JsDoc) (qL : JStr) (rt : Option (List JStr)) :
    List JStr → List SearchResult
  | [] => []
  | l :: ls =>
    match lineMatch parse qL rt l with
    | some r => r :: lineMatches parse qL rt ls
    | none => lineMatches parse qL rt ls

/-- All matches contributed by one listed file: a failed content fetch
(`none`, lines 73-78) and an empty body (line 81) contribute nothing. -/
def fileMatches (parse : JStr → Option JsDoc) (qL : JStr) (rt : Option (List JStr)) :
    Option JStr → List SearchResult
  | none => []
  | some t => if t.isEmpty then [] else lineMatches parse qL rt (fileLines t)

/-- All matches over the listed files in listing order, without early stop. -/
def allMatches (parse : JStr → Option JsDoc) (qL : JStr) (rt : Option (List JStr)) :
    List (Option JStr) → List SearchResult
  | [] => []
  | f :: fs => fileMatches parse qL rt f ++ allMatches parse qL rt fs

/-- The inner line loop (`mcp-server.mjs` lines 85-124), accumulator-passing:
breaks as soon as `maxResults` results have been collected. -/
def scanLines (parse : JStr → Option JsDoc) (qL : JStr) (rt : Option (List JStr))
    (m : Nat) : List JStr → List SearchResult → List SearchResult
  | [], acc => acc
  | l :: ls, acc =>
    if m ≤ acc.length then acc
    else
      match parse l with
      | none => scanLines parse qL rt m ls acc
      | some d =>
        if tagsPass rt d then
          if queryMatches d qL then
            scanLines parse qL rt m ls (acc ++ [mkResult d])
          else scanLines parse qL rt m ls acc
        else scanLines parse qL rt m ls acc

/-- The outer file loop (`mcp-server.mjs` lines 60-125): breaks once full,
skips failed fetches and empty bodies, otherwise runs the line loop. -/
def scanFiles (parse : JStr → Option JsDoc) (qL : JStr) (rt : Option (List JStr))
    (m : Nat) : List (Option JStr) → List SearchResult → List SearchResult
  | [], acc => acc
  | f :: fs, acc =>
    if m ≤ acc.length then acc
    else
      match f with
      | none => scanFiles parse qL rt m fs acc
      | some t =>
        if t.isEmpty then scanFiles parse qL rt m fs acc
        else scanFiles parse qL rt m fs (scanLines parse qL rt m (fileLines t) acc)

/-- `const maxResults = topK || 10` (`mcp-server.mjs` line 57). -/
def maxResultsOf : Option Nat → Nat
  | none => 10
  | some k => if k = 0 then 10 else k

/-- `filterTags && filterTags.length > 0 ? filterTags : null`
(`mcp-server.mjs` line 58). -/
def requiredTagsOf : Option (List JStr) → Option (List JStr)
  | some l => if l.isEmpty then none else some l
  | none => none

/-- `naiveVectorStoreSearch` (`mcp-server.mjs` lines 30-128). Host effects
are inputs: `parse` is `JSON.parse`, `files` is the fetched content of each
listed file in listing order (`none` = fetch failed / non-ok status). The
final `.slice(0, maxResults)` is `List.take`. -/
def naiveVectorStoreSearch (parse : JStr → Option JsDoc) (files : List (Option JStr))
    (query : JStr) (topK : Option Nat) (filterTags : Option (List JStr)) :
    List SearchResult :=
  (scanFiles parse (lowerStr query) (requiredTagsOf filterTags) (maxResultsOf topK)
    files []).take (maxResultsOf topK)

theorem scanLines_eq (parse : JStr → Option JsDoc) (qL : JStr)
    (rt : Option (List JStr)) (m : Nat) :
    ∀ (ls : List JStr) (acc : List SearchResult), acc.length ≤ m →
      scanLines parse qL rt m ls acc =
        acc ++ (lineMatches parse qL rt ls).take (m - acc.length) := by
  intro ls
  induction ls with
  | nil => intro acc _; simp [scanLines, lineMatches]
  | cons l ls ih =>
    intro acc hacc
    rw [scanLines]
    by_cases hfull : m ≤ acc.length
    · have : m - acc.length = 0 := by omega
      simp [hfull, this]
    · simp only [hfull, if_false]
      cases hp : parse l with
      | none =>
        rw [ih acc hacc]
        simp [lineMatches, lineMatch, hp]
      | some d =>
        cases ht : tagsPass rt d with
        | false =>
          simp only [Bool.false_eq_true, if_false]
          rw [ih acc hacc]
          simp [lineMatches, lineMatch, hp, ht]
        | true =>
          simp only [if_true]
          cases hq : queryMatches d qL with
          | false =>
            simp only [Bool.false_eq_true, if_false]
            rw [ih acc hacc]
            simp [lineMatches, lineMatch, hp, ht, hq]
          | true =>
            simp only [if_true]
            rw [ih (acc ++ [mkResult d]) (by simp; omega)]
            have hsub : m - acc.length = (m - (acc.length + 1)) + 1 := by omega
            simp only [lineMatches, lineMatch, hp, ht, hq, if_true,
              List.length_append, List.length_singleton, hsub, List.take_succ_cons,
              List.append_assoc, List.singleton_append]

theorem scanFiles_eq (parse : JStr → Option JsDoc) (qL : JStr)
    (rt : Option (List JStr)) (m : Nat) :
    ∀ (fs : List (Option JStr)) (acc : List SearchResult), acc.length ≤ m →
      scanFiles parse qL rt m fs acc =
        acc ++ (allMatches parse qL rt fs).take (m - acc.length) := by
  intro fs
  induction fs with
  | nil => intro acc _; simp [scanFiles, allMatches]
  | cons f fs ih =>
    intro acc hacc
    rw [show scanFiles parse qL rt m (f :: fs) acc =
        if m ≤ acc.length then acc
        else
          match f with
          | none => scanFiles parse qL rt m fs acc
          | some t =>
            if t.isEmpty then scanFiles parse qL rt m fs acc
            else scanFiles parse qL rt m fs
              (scanLines parse qL rt m (fileLines t) acc) from rfl]
    by_cases hfull : m ≤ acc.length
    · have : m - acc.length = 0 := by omega
      simp [hfull, this]
    · simp only [hfull, if_false]
      cases f with
      | none =>
        rw [ih acc hacc]
        simp [allMatches, fileMatches]
      | some t =>
        by_cases hemp : t.isEmpty
        · simp only [hemp, if_true]
          rw [ih acc hacc]
          simp [allMatches, fileMatches, hemp]
        · simp only [hemp, if_false]
          rw [scanLines_eq parse qL rt m (fileLines t) acc hacc]
          set A := lineMatches parse qL rt (fileLines t) with hA
          have hlen : (acc ++ A.take (m - acc.length)).length =
              acc.length + min (m - acc.length) A.length := by
            simp [List.length_take]
          rw [ih (acc ++ A.take (m - acc.length)) (by rw [hlen]; omega)]
          rw [hlen]
          have harith : m - (acc.length + min (m - acc.length) A.length) =
              (m - acc.length) - A.length := by omega
          rw [harith]
          simp only [allMatches, fileMatches, hemp, if_false, ← hA]
          rw [List.take_append_eq_append_take, List.append_assoc]
          simp

/-- The whole search equals the first `maxResults` full matches, in order. -/
theorem search_eq_take (parse : JStr → Option JsDoc) (files : List (Option JStr))
    (query : JStr) (topK : Option Nat) (filterTags : Option (List JStr)) :
    naiveVectorStoreSearch parse files query topK filterTags =
      (allMatches parse (lowerStr query) (requiredTagsOf filterTags) files).take
        (maxResultsOf topK) := by
  rw [naiveVectorStoreSearch, scanFiles_eq _ _ _ _ _ _ (by simp)]
  simp [List.take_take]

theorem lineMatches_score (parse : JStr → Option JsDoc) (qL : JStr)
    (rt : Option (List JStr)) :
    ∀ ls : List JStr, (lineMatches parse qL rt ls).all (fun r => r.score == 1) = true := by
  intro ls
  induction ls with
  | nil => simp [lineMatches]
  | cons l ls ih =>
    rw [lineMatches]
    cases hp : lineMatch parse qL rt l with
    | none => exact ih
    | some r =>
      have hr : r.score = 1 := by
        rw [lineMatch] at hp
        cases hpp : parse l with
        | none => rw [hpp] at hp; exact absurd hp (by simp)
        | some d =>
          rw [hpp] at hp
          by_cases ht : tagsPass rt d = true
          · by_cases hq : queryMatches d qL = true
            · simp only [ht, hq, if_true, Option.some.injEq] at hp
              rw [← hp, mkResult]
            · simp [ht, hq] at hp
          · simp [ht] at hp
      simp [List.all_cons, hr, ih]

theorem allMatches_score (parse : JStr → Option JsDoc) (qL : JStr)
    (rt : Option (List JStr)) :
    ∀ fs : List (Option JStr),
      (allMatches parse qL rt fs).all (fun r => r.score == 1) = true := by
  intro fs
  induction fs with
  | nil => simp [allMatches]
  | cons f fs ih =>
    rw [allMatches, List.all_append, Bool.and_eq_true]
    constructor
    · cases f with
      | none => simp [fileMatches]
      | some t =>
        rw [fileMatches]
        by_cases h : t.isEmpty
        · simp [h]
        · simp only [h, if_false]
          exact lineMatches_score parse qL rt (fileLines t)
    · exact ih

theorem all_take {α : Type} (p : α → Bool) :
    ∀ (l : List α) (n : Nat), l.all p = true → (l.take n).all p = true := by
  intro l
  induction l with
  | nil => intro n _; simp
  | cons a l ih =>
    intro n h
    rw [List.all_cons, Bool.and_eq_true] at h
    cases n with
    | zero => simp
    | succ n =>
      rw [List.take_succ_cons, List.all_cons, Bool.and_eq_true]
      exact ⟨h.1, ih n h.2⟩

theorem splitNl_ne_nil : ∀ t : JStr, splitNl t ≠ [] := by
  intro t
  cases t with
  | nil => simp [splitNl]
  | cons c rest =>
    rw [splitNl]
    cases h : splitNl rest with
    | nil => simp
    | cons l ls =>
      by_cases hc : c = '\n' <;> simp [hc]

theorem splitNl_append (xs ys : JStr) :
    splitNl (xs ++ '\n' :: ys) = splitNl xs ++ splitNl ys := by
  induction xs with
  | nil =>
    rw [List.nil_append, splitNl, splitNl]
    cases hy : splitNl ys with
    | nil => exact absurd hy (splitNl_ne_nil ys)
    | cons m ms => simp
  | cons c xs ih =>
    rw [List.cons_append, splitNl, ih, splitNl]
    cases h : splitNl xs with
    | nil => exact absurd h (splitNl_ne_nil xs)
    | cons l ls =>
      by_cases hc : c = '\n'
      · simp [hc]
      · simp [hc]

theorem splitNl_blank_segments (b : JStr) (hb : isBlankLine b = true) :
    ∀ l ∈ splitNl b, isBlankLine l = true := by
  induction b with
  | nil =>
    intro l hl
    simp only [splitNl, List.mem_singleton] at hl
    simp [hl, isBlankLine]
  | cons c rest ih =>
    rw [isBlankLine, List.all_cons, Bool.and_eq_true] at hb
    have ihr := ih hb.2
    intro l hl
    rw [splitNl] at hl
    cases h : splitNl rest with
    | nil => exact absurd h (splitNl_ne_nil rest)
    | cons s ss =>
      rw [h] at hl ihr
      by_cases hc : c = '\n'
      · simp only [hc, if_true] at hl
        rcases List.mem_cons.mp hl with hnil | hmem
        · simp [hnil, isBlankLine]
        · exact ihr l hmem
      · simp only [hc, if_false] at hl
        rcases List.mem_cons.mp hl with hcons | hmem
        · subst hcons
          rw [isBlankLine, List.all_cons, Bool.and_eq_true]
          exact ⟨hb.1, ihr s (List.mem_cons_self s ss)⟩
        · exact ihr l (List.mem_cons_of_mem s hmem)

theorem fileLines_blank (b : JStr) (hb : isBlankLine b = true) :
    fileLines b = [] := by
  rw [fileLines, List.filter_eq_nil_iff]
  intro l hl
  simp [splitNl_blank_segments b hb l hl]

/-- Inserting a fully blank line between two newlines leaves the filtered
line list unchanged. -/
theorem fileLines_insert_blank (t1 b t2 : JStr) (hb : isBlankLine b = true) :
    fileLines (t1 ++ '\n' :: (b ++ '\n' :: t2)) = fileLines (t1 ++ '\n' :: t2) := by
  rw [fileLines, fileLines, splitNl_append, splitNl_append, splitNl_append,
    List.filter_append, List.filter_append, List.filter_append]
  have hbnil : (splitNl b).filter (fun l => !isBlankLine l) = [] := by
    rw [List.filter_eq_nil_iff]
    intro l hl
    simp [splitNl_blank_segments b hb l hl]
  rw [hbnil]
  simp

theorem lineMatches_none (parse : JStr → Option JsDoc) (qL : JStr)
    (rt : Option (List JStr)) :
    ∀ ls : List JStr, (∀ l ∈ ls, parse l = none) →
      lineMatches parse qL rt ls = [] := by
  intro ls
  induction ls with
  | nil => intro _; simp [lineMatches]
  | cons l ls ih =>
    intro h
    rw [lineMatches, lineMatch, h l (List.mem_cons_self l ls)]
    exact ih fun x hx => h x (List.mem_cons_of_mem l hx)

theorem append_cons_not_empty (t1 : JStr) (c : Char) (t2 : JStr) :
    (t1 ++ c :: t2).isEmpty = false := by
  cases t1 <;> simp

/-- Sample host `JSON.parse` used for concrete instances: every line parses
to a record whose `text` is the line itself. -/
def sampleParse : JStr → Option JsDoc := fun l => some { text := some l, jsonAll := l }

/-- Sample file content: thirty lines, each reading `hit`. -/
def sampleContent : JStr := (List.replicate 30 (ofStr "hit\n")).flatten

/-- A host `JSON.parse` for which every line fails to parse. -/
def failParse : JStr → Option JsDoc := fun _ => none

/-- C1: a scanned record is kept as a match exactly when the lowercased
query occurs as a contiguous substring of the lowercase haystack built from
text, title, comment, JSON-stringified tags, kind and type (missing fields
contributing empty strings); matching is case-insensitive, e.g. a record
titled "Inception" matches "incep" and "INCEP" but not "incepti0n". -/
theorem c1_substring_match :
    (∀ (d : JsDoc) (query : JStr),
      queryMatches d (lowerStr query) = true ↔
        ∃ pre suf, haystack d = pre ++ lowerStr query ++ suf) ∧
    queryMatches { title := some (ofStr "Inception") } (lowerStr (ofStr "incep")) = true ∧
    queryMatches { title := some (ofStr "Inception") } (lowerStr (ofStr "INCEP")) = true ∧
    queryMatches { title := some (ofStr "Inception") } (lowerStr (ofStr "incepti0n")) = false ∧
    haystack {} = ofStr "   []  " := by
  refine ⟨?_, by decide, by decide, by decide, by decide⟩
  intro d q
  exact containsSub_iff (haystack d) (lowerStr q)

/-- C2: with a non-empty `filterTags` list the tag filter keeps a record
exactly when every requested tag is among the record's tags (conjunctive
AND): tags `["a"]` fail filter `["a","b"]`, tags `["a","b","c"]` pass. -/
theorem c2_tag_filter_conjunctive :
    (∀ (req : List JStr) (d : JsDoc),
      tagsPass (requiredTagsOf (some req)) d = true ↔ ∀ t ∈ req, t ∈ docTags d) ∧
    tagsPass (requiredTagsOf (some [ofStr "a", ofStr "b"]))
      { tags := some [ofStr "a"] } = false ∧
    tagsPass (requiredTagsOf (some [ofStr "a", ofStr "b"]))
      { tags := some [ofStr "a", ofStr "b", ofStr "c"] } = true := by
  refine ⟨?_, by decide, by decide⟩
  intro req d
  cases req with
  | nil => simp [requiredTagsOf, tagsPass]
  | cons t ts =>
    rw [requiredTagsOf]
    simp only [List.isEmpty_cons, if_false, Bool.false_eq_true, tagsPass, hasAllTags,
      List.all_eq_true]
    constructor
    · intro h x hx
      have := h x hx
      exact List.elem_iff.mp this
    · intro h x hx
      exact List.elem_iff.mpr (h x hx)

/-- Witness for C1: the substring characterization applied at the
Inception record and the query "incep", with the occurrence exhibited. -/
theorem c1_substring_match_witness :
    queryMatches { title := some (ofStr "Inception") } (lowerStr (ofStr "incep")) = true := by
  exact (c1_substring_match.1 { title := some (ofStr "Inception") } (ofStr "incep")).mpr
    ⟨ofStr " ", ofStr "tion  []  ", by decide⟩

/-- Witness for C2: the conjunctive characterization applied at a record
whose tags contain the single requested tag. -/
theorem c2_tag_filter_conjunctive_witness :
    tagsPass (requiredTagsOf (some [ofStr "a"])) { tags := some [ofStr "a"] } = true := by
  exact (c2_tag_filter_conjunctive.1 [ofStr "a"] { tags := some [ofStr "a"] }).mpr
    (fun t ht => by simpa [docTags] using ht)

/-- C3: scanning stops at `topK` matches (default 10 when absent); the
result is exactly the first `min topK (number of matches)` matches in
file-listing-then-line order, every score is the constant 1, and with 30
matching lines and `top_k = 5` exactly 5 results are returned. -/
theorem c3_topk_early_stop :
    (∀ (parse : JStr → Option JsDoc) (files : List (Option JStr)) (query : JStr)
        (topK : Option Nat) (ft : Option (List JStr)),
      naiveVectorStoreSearch parse files query topK ft =
        (allMatches parse (lowerStr query) (requiredTagsOf ft) files).take
          (maxResultsOf topK)) ∧
    (∀ (parse : JStr → Option JsDoc) (files : List (Option JStr)) (query : JStr)
        (topK : Option Nat) (ft : Option (List JStr)),
      (naiveVectorStoreSearch parse files query topK ft).length =
        min (maxResultsOf topK)
          (allMatches parse (lowerStr query) (requiredTagsOf ft) files).length) ∧
    (∀ (parse : JStr → Option JsDoc) (files : List (Option JStr)) (query : JStr)
        (topK : Option Nat) (ft : Option (List JStr)),
      (naiveVectorStoreSearch parse files query topK ft).all
        (fun r => r.score == 1) = true) ∧
    (naiveVectorStoreSearch sampleParse [some sampleContent] (ofStr "hit")
      (some 5) none).length = 5 := by
  refine ⟨?_, ?_, ?_, ?_⟩
  · intro parse files query topK ft
    exact search_eq_take parse files query topK ft
  · intro parse files query topK ft
    rw [search_eq_take, List.length_take]
  · intro parse files query topK ft
    rw [search_eq_take]
    exact all_take _ _ _ (allMatches_score parse (lowerStr query) (requiredTagsOf ft) files)
  · rfl

/-- Witness for C3: the length law applied at the thirty-hit sample. -/
theorem c3_topk_early_stop_witness :
    (naiveVectorStoreSearch sampleParse [some sampleContent] (ofStr "hit")
      (some 5) none).length =
      min (maxResultsOf (some 5))
        (allMatches sampleParse (lowerStr (ofStr "hit")) (requiredTagsOf none)
          [some sampleContent]).length := by
  exact c3_topk_early_stop.2.1 sampleParse [some sampleContent] (ofStr "hit")
    (some 5) none

/-- C4: per-item failures never abort the search: a file whose fetch failed
is skipped and scanning continues; blank (whitespace-only) lines are
discarded; lines that fail to parse are skipped silently; and a search with
zero matches returns the empty list rather than failing. -/
theorem c4_per_item_failures :
    (∀ (parse : JStr → Option JsDoc) (fs : List (Option JStr)) (q : JStr)
        (tK : Option Nat) (ft : Option (List JStr)),
      naiveVectorStoreSearch parse (none :: fs) q tK ft =
        naiveVectorStoreSearch parse fs q tK ft) ∧
    (∀ (parse : JStr → Option JsDoc) (fs : List (Option JStr)) (q : JStr)
        (tK : Option Nat) (ft : Option (List JStr)) (t1 b t2 : JStr),
      isBlankLine b = true →
      naiveVectorStoreSearch parse (some (t1 ++ '\n' :: (b ++ '\n' :: t2)) :: fs) q tK ft =
        naiveVectorStoreSearch parse (some (t1 ++ '\n' :: t2) :: fs) q tK ft) ∧
    (∀ (parse : JStr → Option JsDoc) (fs : List (Option JStr)) (q : JStr)
        (tK : Option Nat) (ft : Option (List JStr)) (t : JStr),
      (∀ l ∈ fileLines t, parse l = none) →
      naiveVectorStoreSearch parse (some t :: fs) q tK ft =
        naiveVectorStoreSearch parse fs q tK ft) ∧
    (∀ (parse : JStr → Option JsDoc) (fs : List (Option JStr)) (q : JStr)
        (tK : Option Nat) (ft : Option (List JStr)),
      allMatches parse (lowerStr q) (requiredTagsOf ft) fs = [] →
      naiveVectorStoreSearch parse fs q tK ft = []) := by
  refine ⟨?_, ?_, ?_, ?_⟩
  · intro parse fs q tK ft
    rw [search_eq_take, search_eq_take, allMatches, fileMatches]
    simp
  · intro parse fs q tK ft t1 b t2 hb
    rw [search_eq_take, search_eq_take, allMatches, allMatches, fileMatches, fileMatches,
      append_cons_not_empty, append_cons_not_empty]
    simp only [Bool.false_eq_true, if_false]
    rw [fileLines_insert_blank t1 b t2 hb]
  · intro parse fs q tK ft t h
    rw [search_eq_take, search_eq_take, allMatches, fileMatches]
    by_cases hemp : t.isEmpty
    · simp [hemp]
    · simp only [hemp, if_false, Bool.false_eq_true]
      rw [lineMatches_none _ _ _ _ h]
      simp
  · intro parse fs q tK ft h
    rw [search_eq_take, h]
    simp

/-- Witness for C4 at concrete inputs. -/
theorem c4_per_item_failures_witness :
    (naiveVectorStoreSearch sampleParse (none :: []) (ofStr "x") (some 3) none =
      naiveVectorStoreSearch sampleParse [] (ofStr "x") (some 3) none) ∧
    (naiveVectorStoreSearch sampleParse
        [some (ofStr "a" ++ '\n' :: (ofStr " " ++ '\n' :: ofStr "b"))]
        (ofStr "a") none none =
      naiveVectorStoreSearch sampleParse [some (ofStr "a" ++ '\n' :: ofStr "b")]
        (ofStr "a") none none) ∧
    (naiveVectorStoreSearch failParse [some (ofStr "nonsense")] (ofStr "x") none none =
      naiveVectorStoreSearch failParse [] (ofStr "x") none none) ∧
    naiveVectorStoreSearch sampleParse [] (ofStr "x") none none = [] := by
  refine ⟨?_, ?_, ?_, ?_⟩
  · exact c4_per_item_failures.1 sampleParse [] (ofStr "x") (some 3) none
  · exact c4_per_item_failures.2.1 sampleParse [] (ofStr "a") none none
      (ofStr "a") (ofStr " ") (ofStr "b") (by decide)
  · exact c4_per_item_failures.2.2.1 failParse [] (ofStr "x") none none
      (ofStr "nonsense") (fun l _ => rfl)
  · exact c4_per_item_failures.2.2.2 sampleParse [] (ofStr "x") none none rfl

/-- JS truthiness of a JSON value. -/
def jsTruthy : JVal → Bool
  | .jnull => false
  | .jbool b => b
  | .jint n => !(n == 0)
  | .jstr s => !s.isEmpty
  | .jarr _ => true
  | .jobj _ => true

/-- JS truthiness of an optional JSON value (absent is falsy). -/
def jsTruthyO : Option JVal → Bool
  | none => false
  | some v => jsTruthy v

/-- JS `a ?? d` (nullish coalescing) for an optional JSON value:
both `undefined` (`none`) and `null` fall through to the default. -/
def nullish : Option JVal → JVal → JVal
  | none, d => d
  | some .jnull, d => d
  | some v, _ => v

/-- JS `a || d` for an optional JSON value and a default. -/
def jsOrV : Option JVal → JVal → JVal
  | none, d => d
  | some v, d => if jsTruthy v then v else d

/-- The argument object of `buildMovieDocument` (`server.mjs` lines 55-76).
`none` models an absent (`undefined`) property. -/
structure MovieInput where
  type : Option JVal := none
  title : Option JVal := none
  year : Option JVal := none
  trakt_id : Option JVal := none
  imdb : Option JVal := none
  slug : Option JVal := none
  tmdb : Option JVal := none
  rating : Option JVal := none
  liked : Option JVal := none
  state : Option JVal := none
  source : Option JVal := none
  tags : Option JVal := none
  comment : Option JVal := none

/-- The `title: movie.title` entry of the object literal: `JSON.stringify`
omits a key whose value is `undefined`, so an absent title contributes no
field at all. -/
def movieTitleField (m : MovieInput) : List (JStr × JVal) :=
  match m.title with
  | none => []
  | some v => [(ofStr "title", v)]

/-- The field list of the object literal inside `buildMovieDocument`
(`server.mjs` lines 58-72), in insertion order, with the source's `||` and
`??` defaults applied and `marked_at` stamped with `now`. -/
def movieDocFields (now : JStr) (m : MovieInput) : List (JStr × JVal) :=
  (ofStr "type", jsOrV m.type (.jstr (ofStr "movie_seen"))) ::
  movieTitleField m ++
  [(ofStr "year", nullish m.year .jnull),
   (ofStr "trakt_id", nullish m.trakt_id .jnull),
   (ofStr "imdb", nullish m.imdb .jnull),
   (ofStr "slug", nullish m.slug .jnull),
   (ofStr "tmdb", nullish m.tmdb .jnull),
   (ofStr "rating", nullish m.rating .jnull),
   (ofStr "liked", nullish m.liked .jnull),
   (ofStr "state", nullish m.state (.jstr (ofStr "seen"))),
   (ofStr "source", nullish m.source (.jstr (ofStr "manual"))),
   (ofStr "marked_at", .jstr now),
   (ofStr "tags", nullish m.tags (.jarr [])),
   (ofStr "comment", nullish m.comment .jnull)]

/-- `buildMovieDocument` (`server.mjs` lines 55-76): `JSON.stringify` of the
defaulted record followed by one newline. `now` stands for
`new Date().toISOString()` evaluated at encode time. -/
def buildMovieDocument (now : JStr) (m : MovieInput) : JStr :=
  serVal (.jobj (movieDocFields now m)) ++ ['\n']

theorem lookup_movieDocFields_type (now : JStr) (m : MovieInput) :
    List.lookup (ofStr "type") (movieDocFields now m) =
      some (jsOrV m.type (.jstr (ofStr "movie_seen"))) := by
  simp [movieDocFields, List.lookup]

theorem lookup_movieDocFields_title_none (now : JStr) (m : MovieInput)
    (h : m.title = none) :
    List.lookup (ofStr "title") (movieDocFields now m) = none := by
  simp [movieDocFields, movieTitleField, h, List.lookup, ofStr]

theorem lookup_movieDocFields_year (now : JStr) (m : MovieInput) :
    List.lookup (ofStr "year") (movieDocFields now m) = some (nullish m.year .jnull) := by
  cases ht : m.title <;> simp [movieDocFields, movieTitleField, ht, List.lookup, ofStr]

theorem lookup_movieDocFields_trakt_id (now : JStr) (m : MovieInput) :
    List.lookup (ofStr "trakt_id") (movieDocFields now m) =
      some (nullish m.trakt_id .jnull) := by
  cases ht : m.title <;> simp [movieDocFields, movieTitleField, ht, List.lookup, ofStr]

theorem lookup_movieDocFields_imdb (now : JStr) (m : MovieInput) :
    List.lookup (ofStr "imdb") (movieDocFields now m) = some (nullish m.imdb .jnull) := by
  cases ht : m.title <;> simp [movieDocFields, movieTitleField, ht, List.lookup, ofStr]

theorem lookup_movieDocFields_slug (now : JStr) (m : MovieInput) :
    List.lookup (ofStr "slug") (movieDocFields now m) = some (nullish m.slug .jnull) := by
  cases ht : m.title <;> simp [movieDocFields, movieTitleField, ht, List.lookup, ofStr]

theorem lookup_movieDocFields_tmdb (now : JStr) (m : MovieInput) :
    List.lookup (ofStr "tmdb") (movieDocFields now m) = some (nullish m.tmdb .jnull) := by
  cases ht : m.title <;> simp [movieDocFields, movieTitleField, ht, List.lookup, ofStr]

theorem lookup_movieDocFields_rating (now : JStr) (m : MovieInput) :
    List.lookup (ofStr "rating") (movieDocFields now m) =
      some (nullish m.rating .jnull) := by
  cases ht : m.title <;> simp [movieDocFields, movieTitleField, ht, List.lookup, ofStr]

theorem lookup_movieDocFields_liked (now : JStr) (m : MovieInput) :
    List.lookup (ofStr "liked") (movieDocFields now m) = some (nullish m.liked .jnull) := by
  cases ht : m.title <;> simp [movieDocFields, movieTitleField, ht, List.lookup, ofStr]

theorem lookup_movieDocFields_state (now : JStr) (m : MovieInput) :
    List.lookup (ofStr "state") (movieDocFields now m) =
      some (nullish m.state (.jstr (ofStr "seen"))) := by
  cases ht : m.title <;> simp [movieDocFields, movieTitleField, ht, List.lookup, ofStr]

theorem lookup_movieDocFields_source (now : JStr) (m : MovieInput) :
    List.lookup (ofStr "source") (movieDocFields now m) =
      some (nullish m.source (.jstr (ofStr "manual"))) := by
  cases ht : m.title <;> simp [movieDocFields, movieTitleField, ht, List.lookup, ofStr]

theorem lookup_movieDocFields_marked_at (now : JStr) (m : MovieInput) :
    List.lookup (ofStr "marked_at") (movieDocFields now m) = some (.jstr now) := by
  cases ht : m.title <;> simp [movieDocFields, movieTitleField, ht, List.lookup, ofStr]

theorem lookup_movieDocFields_tags (now : JStr) (m : MovieInput) :
    List.lookup (ofStr "tags") (movieDocFields now m) =
      some (nullish m.tags (.jarr [])) := by
  cases ht : m.title <;> simp [movieDocFields, movieTitleField, ht, List.lookup, ofStr]

theorem lookup_movieDocFields_comment (now : JStr) (m : MovieInput) :
    List.lookup (ofStr "comment") (movieDocFields now m) =
      some (nullish m.comment .jnull) := by
  cases ht : m.title <;> simp [movieDocFields, movieTitleField, ht, List.lookup, ofStr]

/-- C5 counterexample: for the all-absent input the encoded record has no
`title` field at all (it is omitted, not filled with `null`), and the
absent `type` field is filled with the string `"movie_seen"`, not `null` —
so "fills each absent field with its default (null for scalar fields)" is
false as stated. -/
theorem c5_counterexample :
    List.lookup (ofStr "title")
      (movieDocFields (ofStr "2026-01-01T00:00:00.000Z") {}) = none ∧
    List.lookup (ofStr "type")
      (movieDocFields (ofStr "2026-01-01T00:00:00.000Z") {}) =
        some (.jstr (ofStr "movie_seen")) := by
  exact ⟨rfl, rfl⟩

/-- C5 (amended): encode fills each absent field with its default — `null`
for year, trakt_id, imdb, slug, tmdb, rating, liked and comment, `[]` for
tags, `"seen"` for state, `"manual"` for source, `"movie_seen"` for type —
while an absent title is omitted from the record; it stamps `marked_at`
with the current instant supplied at encode time, and produces exactly one
JSON text line terminated by a single newline, with no embedded newlines. -/
theorem c5_document_codec (now : JStr) (m : MovieInput) :
    (m.year = none →
      List.lookup (ofStr "year") (movieDocFields now m) = some .jnull) ∧
    (m.trakt_id = none →
      List.lookup (ofStr "trakt_id") (movieDocFields now m) = some .jnull) ∧
    (m.imdb = none →
      List.lookup (ofStr "imdb") (movieDocFields now m) = some .jnull) ∧
    (m.slug = none →
      List.lookup (ofStr "slug") (movieDocFields now m) = some .jnull) ∧
    (m.tmdb = none →
      List.lookup (ofStr "tmdb") (movieDocFields now m) = some .jnull) ∧
    (m.rating = none →
      List.lookup (ofStr "rating") (movieDocFields now m) = some .jnull) ∧
    (m.liked = none →
      List.lookup (ofStr "liked") (movieDocFields now m) = some .jnull) ∧
    (m.comment = none →
      List.lookup (ofStr "comment") (movieDocFields now m) = some .jnull) ∧
    (m.tags = none →
      List.lookup (ofStr "tags") (movieDocFields now m) = some (.jarr [])) ∧
    (m.state = none →
      List.lookup (ofStr "state") (movieDocFields now m) =
        some (.jstr (ofStr "seen"))) ∧
    (m.source = none →
      List.lookup (ofStr "source") (movieDocFields now m) =
        some (.jstr (ofStr "manual"))) ∧
    (m.type = none →
      List.lookup (ofStr "type") (movieDocFields now m) =
        some (.jstr (ofStr "movie_seen"))) ∧
    (m.title = none →
      List.lookup (ofStr "title") (movieDocFields now m) = none) ∧
    List.lookup (ofStr "marked_at") (movieDocFields now m) = some (.jstr now) ∧
    ∃ body, buildMovieDocument now m = body ++ ['\n'] ∧ '\n' ∉ body := by
  refine ⟨?_, ?_, ?_, ?_, ?_, ?_, ?_, ?_, ?_, ?_, ?_, ?_, ?_, ?_, ?_⟩
  · intro h; rw [lookup_movieDocFields_year, h]; rfl
  · intro h; rw [lookup_movieDocFields_trakt_id, h]; rfl
  · intro h; rw [lookup_movieDocFields_imdb, h]; rfl
  · intro h; rw [lookup_movieDocFields_slug, h]; rfl
  · intro h; rw [lookup_movieDocFields_tmdb, h]; rfl
  · intro h; rw [lookup_movieDocFields_rating, h]; rfl
  · intro h; rw [lookup_movieDocFields_liked, h]; rfl
  · intro h; rw [lookup_movieDocFields_comment, h]; rfl
  · intro h; rw [lookup_movieDocFields_tags, h]; rfl
  · intro h; rw [lookup_movieDocFields_state, h]; rfl
  · intro h; rw [lookup_movieDocFields_source, h]; rfl
  · intro h; rw [lookup_movieDocFields_type, h]; rfl
  · intro h; exact lookup_movieDocFields_title_none now m h
  · exact lookup_movieDocFields_marked_at now m
  · exact ⟨serVal (.jobj (movieDocFields now m)), rfl,
      newline_not_mem_serVal (.jobj (movieDocFields now m))⟩

/-- Witness for C5 at the all-absent input. -/
theorem c5_document_codec_witness :
    List.lookup (ofStr "year")
      (movieDocFields (ofStr "2026-02-02T00:00:00.000Z") {}) = some .jnull ∧
    List.lookup (ofStr "tags")
      (movieDocFields (ofStr "2026-02-02T00:00:00.000Z") {}) = some (.jarr []) ∧
    List.lookup (ofStr "state")
      (movieDocFields (ofStr "2026-02-02T00:00:00.000Z") {}) =
        some (.jstr (ofStr "seen")) ∧
    List.lookup (ofStr "source")
      (movieDocFields (ofStr "2026-02-02T00:00:00.000Z") {}) =
        some (.jstr (ofStr "manual")) ∧
    ∃ body, buildMovieDocument (ofStr "2026-02-02T00:00:00.000Z") {} =
      body ++ ['\n'] ∧ '\n' ∉ body := by
  have h := c5_document_codec (ofStr "2026-02-02T00:00:00.000Z") {}
  exact ⟨h.1 rfl, h.2.2.2.2.2.2.2.2.1 rfl, h.2.2.2.2.2.2.2.2.2.1 rfl,
    h.2.2.2.2.2.2.2.2.2.2.1 rfl, h.2.2.2.2.2.2.2.2.2.2.2.2.2.2⟩

/-- Outcome of the `fetch` attaching the file to the vector store
(`vector-helpers.mjs` lines 632-643): either the promise rejects, or a
response arrives with an `ok` flag and a body. -/
inductive FetchOutcome : Type where
  | netErr : JStr → FetchOutcome
  | resp : Bool → JStr → FetchOutcome

/-- Observable outcome of one `uploadTextToVectorStore` call: the value
returned or error thrown, whether the temp file still exists afterwards,
and whether the `finally` unlink was invoked. -/
structure UploadRun where
  result : Except JStr JStr
  tmpExistsAfter : Bool
  unlinkInvoked : Bool

/-- The `try` body of `uploadTextToVectorStore` (`vector-helpers.mjs` lines
624-661): `openai.files.create` either throws (`createRes = .error`) or
returns a file id; the attach `fetch` either rejects, returns non-ok (both
rethrown as errors, the latter with the response body embedded), or
succeeds, in which case `{ fileId: file.id }` is returned. -/
def uploadCore (createRes : Except JStr JStr) (attachRes : FetchOutcome) :
    Except JStr JStr :=
  match createRes with
  | .error e => .error e
  | .ok fileId =>
    match attachRes with
    | .netErr e => .error e
    | .resp ok body =>
      if ok then .ok fileId
      else .error (ofStr "Vector store attach failed: " ++ body)

/-- `uploadTextToVectorStore` (`vector-helpers.mjs` lines 615-665). The
temp file is written first, then the `try`/`catch`/`finally` runs: the
`finally` clause invokes `fs.promises.unlink(tmpPath).catch(() => {})` on
every exit path, so the unlink is always attempted, a failing unlink
(`unlinkOk = false`) leaves the file behind but is swallowed by the
`.catch`, and the result is whatever the `try`/`catch` produced. -/
def uploadTextToVectorStore (text : JStr) (createRes : Except JStr JStr)
    (attachRes : FetchOutcome) (unlinkOk : Bool) : UploadRun :=
  { result := uploadCore createRes attachRes
    tmpExistsAfter := !unlinkOk
    unlinkInvoked := true }

/-- C6: on every exit path of the uploader — returning a fileId or throwing
at the create or attach step — the `finally` unlink of the temp file runs,
a successful unlink leaves no temp file behind, and the unlink's own
outcome never changes what the call returns or throws. -/
theorem c6_upload_cleanup (text : JStr) (createRes : Except JStr JStr)
    (attachRes : FetchOutcome) (unlinkOk : Bool) :
    (uploadTextToVectorStore text createRes attachRes unlinkOk).unlinkInvoked = true ∧
    (uploadTextToVectorStore text createRes attachRes true).tmpExistsAfter = false ∧
    (uploadTextToVectorStore text createRes attachRes unlinkOk).result =
      (uploadTextToVectorStore text createRes attachRes false).result := by
  exact ⟨rfl, rfl, rfl⟩

/-- External calls performed by the HTTP handlers, in order. -/
inductive ExtCall : Type where
  | upload : JStr → ExtCall
  | traktAddHistory : Option JVal → Option JVal → Option JVal → Option JVal → ExtCall

/-- An HTTP response: status code and JSON body. -/
structure HttpResp where
  status : Nat
  body : JVal

/-- The request body of `POST /mark-seen` (`server.mjs` lines 276-288);
`none` models an absent property. -/
structure MarkSeenReq where
  title : Option JVal := none
  year : Option JVal := none
  trakt_id : Option JVal := none
  imdb : Option JVal := none
  slug : Option JVal := none
  tmdb : Option JVal := none
  rating : Option JVal := none
  liked : Option JVal := none
  tags : Option JVal := none
  comment : Option JVal := none
  syncTrakt : Option JVal := none

/-- `syncTrakt = true` destructuring default (`server.mjs` line 287):
only an absent property takes the default. -/
def effSyncTrakt (r : MarkSeenReq) : JVal := r.syncTrakt.getD (.jbool true)

/-- `(trakt_id || imdb || slug || tmdb)` (`server.mjs` line 319). -/
def hasAnyId (r : MarkSeenReq) : Bool :=
  jsTruthyO r.trakt_id || jsTruthyO r.imdb || jsTruthyO r.slug || jsTruthyO r.tmdb

/-- The argument passed to `buildMovieDocument` by the `/mark-seen` handler
(`server.mjs` lines 295-311). -/
def movieOfMarkSeen (r : MarkSeenReq) (s : JStr) : MovieInput :=
  { type := some (.jstr (ofStr "movie_seen"))
    title := some (.jstr s)
    year := r.year
    trakt_id := r.trakt_id
    imdb := r.imdb
    slug := r.slug
    tmdb := r.tmdb
    rating := r.rating
    liked := r.liked
    state := some (.jstr (ofStr "seen"))
    source := some (.jstr (if jsTruthy (effSyncTrakt r)
      then ofStr "mark_seen_trakt+vector" else ofStr "mark_seen_vector_only"))
    tags := r.tags
    comment := r.comment }

/-- The `stored` sub-object of the success response
(`server.mjs` lines 338-348). -/
def markSeenStored (r : MarkSeenReq) (s : JStr) : JVal :=
  .jobj [(ofStr "title", .jstr s),
    (ofStr "year", nullish r.year .jnull),
    (ofStr "trakt_id", nullish r.trakt_id .jnull),
    (ofStr "imdb", nullish r.imdb .jnull),
    (ofStr "slug", nullish r.slug .jnull),
    (ofStr "tmdb", nullish r.tmdb .jnull),
    (ofStr "rating", nullish r.rating .jnull),
    (ofStr "liked", nullish r.liked .jnull),
    (ofStr "tags", nullish r.tags (.jarr []))]

/-- The `POST /mark-seen` handler (`server.mjs` lines 274-359). Host
effects are inputs: `now` is the encode-time clock value, `cfg` is
`TRAKT_CLIENT_ID && TRAKT_ACCESS_TOKEN`, `uploadRes` the uploader outcome
and `traktRes` the `traktAddToHistory` outcome. Returns the HTTP response
and the ordered list of external calls performed. -/
def markSeenHandler (now : JStr) (cfg : Bool) (r : MarkSeenReq)
    (uploadRes : Except JStr JStr) (traktRes : Except JStr JVal) :
    HttpResp × List ExtCall :=
  match r.title with
  | some (.jstr s) =>
    if s.isEmpty then
      (⟨400, .jobj [(ofStr "error", .jstr (ofStr "title is required (string)"))]⟩, [])
    else
      let doc := buildMovieDocument now (movieOfMarkSeen r s)
      match uploadRes with
      | .error e =>
        (⟨500, .jobj [(ofStr "error", .jstr (ofStr "internal_error")),
          (ofStr "details", .jstr e)]⟩, [.upload doc])
      | .ok fileId =>
        if jsTruthy (effSyncTrakt r) && hasAnyId r && cfg then
          let traktField :=
            match traktRes with
            | .ok v => v
            | .error e => .jobj [(ofStr "error", .jstr e)]
          (⟨200, .jobj [(ofStr "ok", .jbool true),
            (ofStr "stored", markSeenStored r s),
            (ofStr "vectorStoreFileId", .jstr fileId),
            (ofStr "trakt", traktField)]⟩,
           [.upload doc, .traktAddHistory r.trakt_id r.imdb r.slug r.tmdb])
        else
          (⟨200, .jobj [(ofStr "ok", .jbool true),
            (ofStr "stored", markSeenStored r s),
            (ofStr "vectorStoreFileId", .jstr fileId),
            (ofStr "trakt", .jnull)]⟩,
           [.upload doc])
  | _ =>
    (⟨400, .jobj [(ofStr "error", .jstr (ofStr "title is required (string)"))]⟩, [])

/-- C7: when the storage upload succeeds but the Trakt mirror call fails,
the failure is caught locally: the handler still answers 200 with
`ok: true`, the `trakt` sub-field carries the mirror error, and the call
trace is exactly the memory upload followed by the Trakt attempt — no
compensating call ever rolls the memory write back. -/
theorem c7_partial_mirror_failure (now : JStr) (r : MarkSeenReq) (s f e : JStr)
    (htitle : r.title = some (.jstr s)) (hs : s.isEmpty = false)
    (hsync : jsTruthy (effSyncTrakt r) = true) (hid : hasAnyId r = true) :
    (markSeenHandler now true r (.ok f) (.error e)).1.status = 200 ∧
    List.lookup (ofStr "ok")
      (match (markSeenHandler now true r (.ok f) (.error e)).1.body with
        | .jobj fields => fields
        | _ => []) = some (.jbool true) ∧
    List.lookup (ofStr "trakt")
      (match (markSeenHandler now true r (.ok f) (.error e)).1.body with
        | .jobj fields => fields
        | _ => []) = some (.jobj [(ofStr "error", .jstr e)]) ∧
    (markSeenHandler now true r (.ok f) (.error e)).2 =
      [.upload (buildMovieDocument now (movieOfMarkSeen r s)),
       .traktAddHistory r.trakt_id r.imdb r.slug r.tmdb] := by
  have hstep : markSeenHandler now true r (.ok f) (.error e) =
      (⟨200, .jobj [(ofStr "ok", .jbool true),
        (ofStr "stored", markSeenStored r s),
        (ofStr "vectorStoreFileId", .jstr f),
        (ofStr "trakt", .jobj [(ofStr "error", .jstr e)])]⟩,
       [.upload (buildMovieDocument now (movieOfMarkSeen r s)),
        .traktAddHistory r.trakt_id r.imdb r.slug r.tmdb]) := by
    rw [markSeenHandler, htitle]
    simp [hs, hsync, hid]
  rw [hstep]
  refine ⟨rfl, ?_, ?_, rfl⟩
  · simp [List.lookup, ofStr]
  · simp [List.lookup, ofStr]

/-- Witness for C7 at a concrete request. -/
theorem c7_partial_mirror_failure_witness :
    (markSeenHandler (ofStr "2026-03-03T00:00:00.000Z") true
      { title := some (.jstr (ofStr "Dune")),
        trakt_id := some (.jstr (ofStr "123")) }
      (.ok (ofStr "file-7")) (.error (ofStr "trakt down"))).1.status = 200 ∧
    (markSeenHandler (ofStr "2026-03-03T00:00:00.000Z") true
      { title := some (.jstr (ofStr "Dune")),
        trakt_id := some (.jstr (ofStr "123")) }
      (.ok (ofStr "file-7")) (.error (ofStr "trakt down"))).2 =
      [.upload (buildMovieDocument (ofStr "2026-03-03T00:00:00.000Z")
          (movieOfMarkSeen
            { title := some (.jstr (ofStr "Dune")),
              trakt_id := some (.jstr (ofStr "123")) } (ofStr "Dune"))),
       .traktAddHistory (some (.jstr (ofStr "123"))) none none none] := by
  have h := c7_partial_mirror_failure (ofStr "2026-03-03T00:00:00.000Z")
    { title := some (.jstr (ofStr "Dune")), trakt_id := some (.jstr (ofStr "123")) }
    (ofStr "Dune") (ofStr "file-7") (ofStr "trakt down") rfl rfl rfl rfl
  exact ⟨h.1, h.2.2.2⟩

/-- C8: a `/mark-seen` request whose body lacks a `title`, or whose `title`
is not a string, is answered with status 400 and performs no external call
at all (no upload, no Trakt call). -/
theorem c8_missing_title_rejection (now : JStr) (cfg : Bool) (r : MarkSeenReq)
    (uploadRes : Except JStr JStr) (traktRes : Except JStr JVal)
    (htitle : ∀ s : JStr, r.title ≠ some (.jstr s)) :
    (markSeenHandler now cfg r uploadRes traktRes).1.status = 400 ∧
    (markSeenHandler now cfg r uploadRes traktRes).2 = [] := by
  cases ht : r.title with
  | none => rw [markSeenHandler.eq_def, ht]; exact ⟨rfl, rfl⟩
  | some v =>
    cases v with
    | jstr s => exact absurd ht (htitle s)
    | jnull => rw [markSeenHandler.eq_def, ht]; exact ⟨rfl, rfl⟩
    | jbool b => rw [markSeenHandler.eq_def, ht]; exact ⟨rfl, rfl⟩
    | jint n => rw [markSeenHandler.eq_def, ht]; exact ⟨rfl, rfl⟩
    | jarr vs => rw [markSeenHandler.eq_def, ht]; exact ⟨rfl, rfl⟩
    | jobj fs => rw [markSeenHandler.eq_def, ht]; exact ⟨rfl, rfl⟩

/-- Witness for C8: a request with no title field at all. -/
theorem c8_missing_title_rejection_witness :
    (markSeenHandler (ofStr "2026-04-04T00:00:00.000Z") true {}
      (.ok (ofStr "f")) (.ok .jnull)).1.status = 400 ∧
    (markSeenHandler (ofStr "2026-04-04T00:00:00.000Z") true {}
      (.ok (ofStr "f")) (.ok .jnull)).2 = [] := by
  exact c8_missing_title_rejection (ofStr "2026-04-04T00:00:00.000Z") true {}
    (.ok (ofStr "f")) (.ok .jnull) (fun s h => by simp at h)

/-- The validated input of the `memory_write` tool
(`mcp-server.mjs` lines 226-231). -/
structure MemoryWriteInput where
  kind : JStr
  text : JStr
  source : JStr
  tags : Option (List JStr) := none

/-- The JSONL document built by `memory_write` (`mcp-server.mjs` lines
248-257): one stringified record plus a newline, `created_at` stamped with
the current instant. -/
def memoryWriteDoc (now : JStr) (inp : MemoryWriteInput) : JStr :=
  serVal (.jobj [(ofStr "kind", .jstr inp.kind),
    (ofStr "text", .jstr inp.text),
    (ofStr "source", .jstr inp.source),
    (ofStr "tags", .jarr ((inp.tags.getD []).map .jstr)),
    (ofStr "created_at", .jstr now)]) ++ ['\n']

/-- The `memory_write` tool body (`mcp-server.mjs` lines 247-275): it
awaits the Store Uploader — a thrown error propagates untouched — and on
success returns the structured output
`{ ok: true, vectorStoreFileId: fileId }`. -/
def memory_write (now : JStr) (inp : MemoryWriteInput)
    (uploadRes : Except JStr JStr) : Except JStr JVal :=
  match uploadRes with
  | .error e => .error e
  | .ok fileId =>
    .ok (.jobj [(ofStr "ok", .jbool true),
      (ofStr "vectorStoreFileId", .jstr fileId)])

/-- The output shape asserted by the claim (and the spec's tool table):
`{ok: true, fileId: f}`. Stated from the claim's words for comparison with
the source's actual output. -/
def claimedMemoryWriteOutput (f : JStr) : JVal :=
  .jobj [(ofStr "ok", .jbool true), (ofStr "fileId", .jstr f)]

/-- C9 counterexample: at a concrete successful call, the structured output
has no `fileId` key at all — the identifier is returned under
`vectorStoreFileId` — so the claimed output `{ok: true, fileId: f}` is
false as stated. -/
theorem c9_counterexample :
    memory_write (ofStr "2026-05-05T00:00:00.000Z")
      { kind := ofStr "note", text := ofStr "hola", source := ofStr "chat" }
      (.ok (ofStr "file-9")) =
      .ok (.jobj [(ofStr "ok", .jbool true),
        (ofStr "vectorStoreFileId", .jstr (ofStr "file-9"))]) ∧
    List.lookup (ofStr "fileId")
      [(ofStr "ok", JVal.jbool true),
       (ofStr "vectorStoreFileId", JVal.jstr (ofStr "file-9"))] = none ∧
    List.lookup (ofStr "fileId")
      (match claimedMemoryWriteOutput (ofStr "file-9") with
        | .jobj fields => fields
        | _ => []) = some (.jstr (ofStr "file-9")) := by
  exact ⟨rfl, rfl, rfl⟩

/-- C9 (amended): for schema-valid input, if the Store Uploader succeeds
with identifier `f` the tool's structured output is
`{ok: true, vectorStoreFileId: f}`, and if the uploader fails the tool
throws (the error propagates). -/
theorem c9_memory_write (now : JStr) (inp : MemoryWriteInput) (f e : JStr)
    (hvalid : inp.text ≠ []) :
    memory_write now inp (.ok f) =
      .ok (.jobj [(ofStr "ok", .jbool true),
        (ofStr "vectorStoreFileId", .jstr f)]) ∧
    memory_write now inp (.error e) = .error e := by
  exact ⟨rfl, rfl⟩

/-- Witness for C9 at a concrete valid input. -/
theorem c9_memory_write_witness :
    memory_write (ofStr "2026-05-05T00:00:00.000Z")
      { kind := ofStr "note", text := ofStr "hola", source := ofStr "chat" }
      (.ok (ofStr "file-9")) =
      .ok (.jobj [(ofStr "ok", .jbool true),
        (ofStr "vectorStoreFileId", .jstr (ofStr "file-9"))]) ∧
    memory_write (ofStr "2026-05-05T00:00:00.000Z")
      { kind := ofStr "note", text := ofStr "hola", source := ofStr "chat" }
      (.error (ofStr "boom")) = .error (ofStr "boom") := by
  exact c9_memory_write (ofStr "2026-05-05T00:00:00.000Z")
    { kind := ofStr "note", text := ofStr "hola", source := ofStr "chat" }
    (ofStr "file-9") (ofStr "boom") (by decide)

/-- The `limit` argument of `traktFetchHistory` as a JS value: absent
(`undefined`), `null`, a number, or a non-numeric value (whose `Number(·)`
is `NaN`). -/
inductive JsLimit : Type where
  | undef : JsLimit
  | nullv : JsLimit
  | num : Int → JsLimit
  | nan : JsLimit

/-- `Number(limit) || 200` (`server.mjs` line 143): `Number(undefined)` and
`Number` of a non-numeric value are `NaN`, `Number(null)` is `0`; `NaN` and
`0` are falsy, so all of those fall back to `200`. -/
def numberOr200 : JsLimit → Int
  | .undef => 200
  | .nullv => 200
  | .nan => 200
  | .num n => if n = 0 then 200 else n

/-- `const safeLimit = Math.max(1, Math.min(Number(limit) || 200, 500))`
(`server.mjs` line 143). -/
def traktSafeLimit (limit : JsLimit) : Int :=
  max 1 (min (numberOr200 limit) 500)

/-- The request URL of `traktFetchHistory` (`server.mjs` line 145): the
limit actually sent is `safeLimit`. -/
def traktHistoryUrl (limit : JsLimit) : JStr :=
  ofStr "https://api.trakt.tv/sync/history/movies?limit=" ++
    intToStr (traktSafeLimit limit)

/-- C10: the limit sent to Trakt is clamped into [1, 500]: missing, null,
zero, or non-numeric limits become 200, values above 500 become 500, and
(nonzero) values below 1 become 1; the URL embeds exactly the clamped
value. -/
theorem c10_trakt_limit_clamp :
    (∀ l : JsLimit, 1 ≤ traktSafeLimit l ∧ traktSafeLimit l ≤ 500) ∧
    traktSafeLimit .undef = 200 ∧
    traktSafeLimit .nullv = 200 ∧
    traktSafeLimit (.num 0) = 200 ∧
    traktSafeLimit .nan = 200 ∧
    (∀ n : Int, 500 < n → traktSafeLimit (.num n) = 500) ∧
    (∀ n : Int, n < 1 → n ≠ 0 → traktSafeLimit (.num n) = 1) ∧
    (∀ l : JsLimit, traktHistoryUrl l =
      ofStr "https://api.trakt.tv/sync/history/movies?limit=" ++
        intToStr (traktSafeLimit l)) := by
  refine ⟨?_, by decide, by decide, by decide, by decide, ?_, ?_, fun l => rfl⟩
  · intro l
    cases l with
    | undef => exact ⟨by decide, by decide⟩
    | nullv => exact ⟨by decide, by decide⟩
    | nan => exact ⟨by decide, by decide⟩
    | num n =>
      rw [traktSafeLimit, numberOr200]
      by_cases h : n = 0
      · simp [h]
      · simp only [h, if_false]
        constructor
        · exact le_max_left 1 _
        · rw [max_le_iff]
          exact ⟨by omega, min_le_right _ _⟩
  · intro n hn
    rw [traktSafeLimit, numberOr200]
    have h0 : ¬ n = 0 := by omega
    simp only [h0, if_false]
    rw [min_eq_right (by omega), max_eq_right (by omega)]
  · intro n hn h0
    rw [traktSafeLimit, numberOr200]
    simp only [h0, if_false]
    rw [min_eq_left (by omega), max_eq_left (by omega)]

/-- Witness for C10's conditional conjuncts at concrete limits. -/
theorem c10_trakt_limit_clamp_witness :
    (1 ≤ traktSafeLimit (.num 7) ∧ traktSafeLimit (.num 7) ≤ 500) ∧
    traktSafeLimit (.num 9999) = 500 ∧
    traktSafeLimit (.num (-3)) = 1 := by
  exact ⟨(c10_trakt_limit_clamp.1 (.num 7)),
    c10_trakt_limit_clamp.2.2.2.2.2.1 9999 (by decide),
    c10_trakt_limit_clamp.2.2.2.2.2.2.1 (-3) (by decide) (by decide)⟩

end AMovies
